import Mathlib

/-
Verification of the client-side audio capture and format-normalization
pipeline of the breath-wise-scan repository.

The embedding models:
  * audioBufferToWav — the pure WAV (RIFF/PCM) encoder;
  * convertWebMToWAV — the decode-with-fallback transcoder;
  * the useAudioRecorder hook state machine (startRecording,
    ondataavailable, onstop, stopRecording, clearRecording);
  * validateAudioFile (services/api) and the FileUploader validateFile.

Bytes are modelled as Nat values below 256 in lists; float samples as
rationals; the browser environment (getUserMedia, decodeAudioData,
MediaRecorder.isTypeSupported) as explicit parameters.
-/

namespace BreathScan

/-- Little-endian byte pair written by DataView.setUint16 (value wraps mod 2^16). -/
def u16le (v : Nat) : List Nat := [v % 256, v / 256 % 256]

/-- Little-endian byte quadruple written by DataView.setUint32 (value wraps mod 2^32). -/
def u32le (v : Nat) : List Nat :=
  [v % 256, v / 256 % 256, v / 2 ^ 16 % 256, v / 2 ^ 24 % 256]

/-- Bytes written by DataView.setInt16: two's-complement 16-bit little endian. -/
def i16le (v : Int) : List Nat := u16le (v.emod 65536).toNat

/-- The writeString helper of audioBufferToWav: one byte per character
(setUint8 of charCodeAt, which wraps mod 256). -/
def writeString (s : String) : List Nat := s.toList.map (fun c => c.toNat % 256)

/-- Model of a Web Audio AudioBuffer: channelData ch i is sample i of channel ch,
a float modelled as a rational. -/
structure AudioBuffer where
  numberOfChannels : Nat
  sampleRate : Nat
  length : Nat
  channelData : Nat → Nat → ℚ

/-- The clamping step of the encoder: Math.max(-1, Math.min(1, sample)). -/
def clampSample (s : ℚ) : ℚ := max (-1) (min 1 s)

/-- Truncation toward zero, the conversion DataView.setInt16 applies to a
non-integral JS number. -/
def truncToInt (q : ℚ) : Int := q.num.tdiv q.den

/-- The 16-bit value the encoder stores for one float sample:
clamp to [-1, 1], scale by 0x7FFF = 32767, truncate. -/
def sampleToInt16 (s : ℚ) : Int := truncToInt (clampSample s * 32767)

/-- Bytes produced by a loop for j in 0..n-1 appending f j, in order. -/
def concatMapRange (f : Nat → List Nat) : Nat → List Nat
  | 0 => []
  | n + 1 => concatMapRange f n ++ f n

/-- The bytes of one frame: channels 0 .. min(numberOfChannels, 2) - 1 of
sample index i, each as a little-endian int16. -/
def frameBytes (b : AudioBuffer) (i : Nat) : List Nat :=
  concatMapRange (fun ch => i16le (sampleToInt16 (b.channelData ch i)))
    (min b.numberOfChannels 2)

/-- The interleaved PCM body: frames in index order, channels within a frame. -/
def pcmData (b : AudioBuffer) : List Nat :=
  concatMapRange (fun i => frameBytes b i) b.length

/-- The 44-byte WAV header exactly as audioBufferToWav writes it. -/
def wavHeader (sampleRate numberOfChannels sampleCount : Nat) : List Nat :=
  writeString "RIFF" ++
  u32le (36 + sampleCount * numberOfChannels * 2) ++
  writeString "WAVE" ++
  writeString "fmt " ++
  u32le 16 ++
  u16le 1 ++
  u16le numberOfChannels ++
  u32le sampleRate ++
  u32le (sampleRate * numberOfChannels * 2) ++
  u16le (numberOfChannels * 2) ++
  u16le 16 ++
  writeString "data" ++
  u32le (sampleCount * numberOfChannels * 2)

/-- The audioBufferToWav function of useAudioRecorder: header then
interleaved clamped 16-bit samples, limited to at most two channels. -/
def audioBufferToWav (b : AudioBuffer) : List Nat :=
  wavHeader b.sampleRate (min b.numberOfChannels 2) b.length ++ pcmData b

theorem i16le_length (v : Int) : (i16le v).length = 2 := rfl

theorem truncToInt_intCast (n : ℤ) : truncToInt (n : ℚ) = n := by
  rw [truncToInt, Rat.num_intCast, Rat.den_intCast]
  simp [Int.tdiv_one]

theorem clampSample_one : clampSample 1 = 1 := by
  rw [clampSample]
  norm_num

theorem clampSample_two : clampSample 2 = 1 := by
  rw [clampSample]
  norm_num

theorem sampleToInt16_one : sampleToInt16 1 = 32767 := by
  rw [sampleToInt16, clampSample_one, one_mul,
    show (32767 : ℚ) = ((32767 : ℤ) : ℚ) by norm_num, truncToInt_intCast]

theorem sampleToInt16_two : sampleToInt16 2 = 32767 := by
  rw [sampleToInt16, clampSample_two, one_mul,
    show (32767 : ℚ) = ((32767 : ℤ) : ℚ) by norm_num, truncToInt_intCast]

theorem wavHeader_length (r c l : Nat) : (wavHeader r c l).length = 44 := rfl

theorem concatMapRange_length (f : Nat → List Nat) (k : Nat)
    (hf : ∀ j, (f j).length = k) : ∀ n, (concatMapRange f n).length = n * k := by
  intro n
  induction n with
  | zero => simp [concatMapRange]
  | succ m ih => simp [concatMapRange, ih, hf m, Nat.succ_mul]

theorem concatMapRange_congr (f g : Nat → List Nat) (n : Nat)
    (h : ∀ j, j < n → f j = g j) : concatMapRange f n = concatMapRange g n := by
  induction n with
  | zero => rfl
  | succ m ih =>
      simp only [concatMapRange]
      rw [ih (fun j hj => h j (Nat.lt_succ_of_lt hj)), h m (Nat.lt_succ_self m)]

theorem drop_append_le {α : Type} (ys : List α) :
    ∀ (xs : List α) (n : Nat), n ≤ xs.length →
      (xs ++ ys).drop n = xs.drop n ++ ys := by
  intro xs
  induction xs with
  | nil => intro n hn; simp at hn; simp [hn]
  | cons a t ih =>
      intro n hn
      cases n with
      | zero => simp
      | succ m => simpa using ih m (by simp at hn; exact hn)

theorem take_append_left {α : Type} (xs ys : List α) (n : Nat)
    (hn : xs.length = n) : (xs ++ ys).take n = xs := by
  subst hn
  induction xs with
  | nil => simp
  | cons a t ih => simp only [List.cons_append, List.length_cons,
      List.take_succ_cons, ih]

theorem frameBytes_length (b : AudioBuffer) (i : Nat) :
    (frameBytes b i).length = min b.numberOfChannels 2 * 2 :=
  concatMapRange_length _ 2 (fun _ => i16le_length _) _

theorem pcmData_length (b : AudioBuffer) :
    (pcmData b).length = b.length * (min b.numberOfChannels 2 * 2) :=
  concatMapRange_length _ _ (fun j => frameBytes_length b j) _

theorem concatMapRange_extract (f : Nat → List Nat) (k : Nat)
    (hf : ∀ j, (f j).length = k) :
    ∀ n i, i < n → ∃ s, (concatMapRange f n).drop (i * k) = f i ++ s := by
  intro n
  induction n with
  | zero => intro i hi; exact absurd hi (Nat.not_lt_zero i)
  | succ m ih =>
      intro i hi
      rcases Nat.lt_succ_iff_lt_or_eq.mp hi with hlt | heq
      · rcases ih i hlt with ⟨s, hs⟩
        refine ⟨s ++ f m, ?_⟩
        rw [concatMapRange,
          drop_append_le (f m) (concatMapRange f m) (i * k)
            (by rw [concatMapRange_length f k hf m]
                exact Nat.mul_le_mul_right k (Nat.le_of_lt hlt)),
          hs, List.append_assoc]
      · subst heq
        refine ⟨[], ?_⟩
        rw [concatMapRange,
          drop_append_le (f i) (concatMapRange f i) (i * k)
            (by rw [concatMapRange_length f k hf i]),
          List.append_nil]
        have : (concatMapRange f i).drop (i * k) = [] :=
          List.drop_eq_nil_of_le (by rw [concatMapRange_length f k hf i])
        rw [this, List.nil_append]

/-- C1: for a decoded waveform with channelCount C in 1..2, sampleRate R > 0
and N samples per channel, audioBufferToWav yields exactly 44 + N*C*2 bytes:
the fixed 44-byte header (RIFF and WAVE markers, total chunk size
36 + dataBytes, PCM format code 1, channel count C, sample rate R, byte rate
R*C*2, block align C*2, 16 bits per sample, data marker, data length N*C*2)
followed by the interleaved sample data. -/
theorem wav_output_layout (b : AudioBuffer)
    (hC : b.numberOfChannels = 1 ∨ b.numberOfChannels = 2)
    (_hR : 0 < b.sampleRate) :
    (audioBufferToWav b).length = 44 + b.length * b.numberOfChannels * 2 ∧
    (audioBufferToWav b).take 44 =
      wavHeader b.sampleRate b.numberOfChannels b.length ∧
    (audioBufferToWav b).drop 44 = pcmData b := by
  have hmin : min b.numberOfChannels 2 = b.numberOfChannels := by
    rcases hC with h | h <;> simp [h]
  refine ⟨?_, ?_, ?_⟩
  · rw [audioBufferToWav, List.length_append, wavHeader_length, pcmData_length,
      hmin, Nat.mul_assoc]
  · rw [audioBufferToWav, hmin, take_append_left _ _ 44 (wavHeader_length _ _ _)]
  · rw [audioBufferToWav,
      drop_append_le _ _ 44 (le_of_eq (wavHeader_length _ _ _).symm),
      List.drop_eq_nil_of_le (le_of_eq (wavHeader_length _ _ _)),
      List.nil_append]

def bufWit : AudioBuffer := ⟨1, 8000, 2, fun _ _ => 0⟩

theorem wav_output_layout_witness :
    (audioBufferToWav bufWit).length = 44 + 2 * 1 * 2 ∧
    (audioBufferToWav bufWit).take 44 = wavHeader 8000 1 2 ∧
    (audioBufferToWav bufWit).drop 44 = pcmData bufWit :=
  wav_output_layout bufWit (Or.inl rfl) (by decide)

/-- C4: the bytes of frame i, channel ch sit at offset 44 + (i*C + ch)*2 —
channel-interleaved frames — and are the little-endian 16-bit value obtained
by clamping the float sample to [-1, 1], multiplying by 32767 and truncating;
in particular the out-of-range sample 2 encodes exactly as 1 (saturation at
32767, no wraparound). -/
theorem sample_clamping_interleave (b : AudioBuffer) (i ch : Nat)
    (hi : i < b.length) (hch : ch < min b.numberOfChannels 2) :
    ((audioBufferToWav b).drop
        (44 + (i * min b.numberOfChannels 2 + ch) * 2)).take 2 =
      i16le (sampleToInt16 (b.channelData ch i)) ∧
    sampleToInt16 2 = sampleToInt16 1 ∧ sampleToInt16 2 = 32767 := by
  refine ⟨?_, by rw [sampleToInt16_two, sampleToInt16_one], sampleToInt16_two⟩
  have hdrop : (audioBufferToWav b).drop
      (44 + (i * min b.numberOfChannels 2 + ch) * 2) =
      (pcmData b).drop ((i * min b.numberOfChannels 2 + ch) * 2) := by
    rw [audioBufferToWav, ← wavHeader_length b.sampleRate
      (min b.numberOfChannels 2) b.length, List.drop_append]
  rw [hdrop]
  have hsplit : (i * min b.numberOfChannels 2 + ch) * 2 =
      i * (min b.numberOfChannels 2 * 2) + ch * 2 := by ring
  rw [hsplit, ← List.drop_drop]
  obtain ⟨s, hs⟩ := concatMapRange_extract (fun j => frameBytes b j)
    (min b.numberOfChannels 2 * 2) (fun j => frameBytes_length b j)
    b.length i hi
  simp only [pcmData]
  rw [hs, drop_append_le _ _ (ch * 2)
    (by rw [frameBytes_length]
        exact Nat.mul_le_mul_right 2 (Nat.le_of_lt hch))]
  obtain ⟨t, ht⟩ := concatMapRange_extract
    (fun c => i16le (sampleToInt16 (b.channelData c i))) 2
    (fun c => i16le_length _) (min b.numberOfChannels 2) ch hch
  simp only [frameBytes]
  rw [ht, List.append_assoc,
    take_append_left _ _ 2 (i16le_length _)]

def bufClampWit : AudioBuffer :=
  ⟨2, 44100, 1, fun ch _ => if ch = 0 then 2 else 1 / 2⟩

theorem sample_clamping_interleave_witness :
    ((audioBufferToWav bufClampWit).drop (44 + (0 * min 2 2 + 1) * 2)).take 2 =
      i16le (sampleToInt16 (bufClampWit.channelData 1 0)) ∧
    sampleToInt16 2 = sampleToInt16 1 ∧ sampleToInt16 2 = 32767 :=
  sample_clamping_interleave bufClampWit 0 1 (by decide) (by decide)

/-- C10: audioBufferToWav is a total function over buffers of any channel
count: it always returns a byte buffer of 44 + N * min(C,2) * 2 bytes, and its
output depends only on channels 0 and 1 — channels beyond the first two are
silently dropped with no defensive assertion. -/
theorem encoder_totality_min_channels (b b2 : AudioBuffer)
    (hr : b.sampleRate = b2.sampleRate) (hl : b.length = b2.length)
    (hc : b.numberOfChannels = b2.numberOfChannels)
    (hd : ∀ ch, ch < 2 → ∀ i, b.channelData ch i = b2.channelData ch i) :
    audioBufferToWav b = audioBufferToWav b2 ∧
    (audioBufferToWav b).length =
      44 + b.length * (min b.numberOfChannels 2 * 2) := by
  constructor
  · rw [audioBufferToWav, audioBufferToWav, hr, hc, hl]
    congr 1
    simp only [pcmData]
    rw [hl]
    apply concatMapRange_congr
    intro i _
    simp only [frameBytes]
    rw [hc]
    apply concatMapRange_congr
    intro ch hcch
    rw [hd ch (lt_of_lt_of_le hcch (min_le_right _ _)) i]
  · rw [audioBufferToWav, List.length_append, wavHeader_length, pcmData_length]

def bufThreeA : AudioBuffer := ⟨3, 8000, 1, fun ch _ => if ch = 2 then 1 else 0⟩

def bufThreeB : AudioBuffer := ⟨3, 8000, 1, fun _ _ => 0⟩

theorem encoder_totality_min_channels_witness :
    audioBufferToWav bufThreeA = audioBufferToWav bufThreeB ∧
    (audioBufferToWav bufThreeA).length = 44 + 1 * (min 3 2 * 2) :=
  encoder_totality_min_channels bufThreeA bufThreeB rfl rfl rfl
    (fun ch hch i => by
      have hne : ch ≠ 2 := by omega
      simp [bufThreeA, bufThreeB, hne])

/-- Leading-match test over character-code lists (helper for strIncludes). -/
def leadMatch : List Nat → List Nat → Bool
  | [], _ => true
  | _ :: _, [] => false
  | a :: ps, b :: bs => a == b && leadMatch ps bs

/-- Substring occurrence over character-code lists. -/
def hasSub (pat : List Nat) : List Nat → Bool
  | [] => leadMatch pat []
  | b :: bs => leadMatch pat (b :: bs) || hasSub pat bs

/-- The UTF-16 code units of a string (all strings involved are ASCII). -/
def codes (s : String) : List Nat := s.toList.map Char.toNat

/-- The JS String.includes substring test. -/
def strIncludes (s pat : String) : Bool := hasSub (codes pat) (codes s)

/-- One recorded artifact as stored by setRecording: the content bytes of the
File object, its MIME type, its filename, and the wall-clock duration. -/
structure RecFile where
  bytes : List Nat
  mimeType : String
  filename : String
  durationMs : Nat
  deriving DecidableEq

/-- The React state and mutable refs of the useAudioRecorder hook. -/
structure RecorderState where
  recording : Option RecFile
  isRecording : Bool
  error : Option String
  streamRef : Option Nat
  chunksRef : List (List Nat)
  mimeType : String
  mediaRecorderRef : Option Nat
  startTime : Nat
  deriving DecidableEq

/-- The browser environment outside the hook: the id getUserMedia would give
the next stream, and the ids of streams whose tracks are currently live. -/
structure World where
  nextId : Nat
  live : List Nat
  deriving DecidableEq

def initialRecorderState : RecorderState :=
  ⟨none, false, none, none, [], "", none, 0⟩

/-- MediaRecorder.isTypeSupported answers for the four probed MIME types. -/
structure MimeSupport where
  wav : Bool
  webmOpus : Bool
  webm : Bool
  oggOpus : Bool

/-- The ordered MIME preference selection in startRecording. -/
def selectMimeType (s : MimeSupport) : String :=
  if s.wav then "audio/wav"
  else if s.webmOpus then "audio/webm;codecs=opus"
  else if s.webm then "audio/webm"
  else if s.oggOpus then "audio/ogg;codecs=opus"
  else "audio/webm;codecs=opus"

/-- startRecording: with permission granted, acquire a fresh stream (its
tracks become live), reset the chunk list, select the MIME type, create a
recorder and set isRecording. There is no guard against an already-running
session, and a previously held stream is neither stopped nor released. With
permission denied, only the error message is set. -/
def startRecording (granted : Bool) (support : MimeSupport) (now : Nat)
    (st : RecorderState) (w : World) : RecorderState × World :=
  if granted then
    ({ st with
        error := none,
        streamRef := some w.nextId,
        chunksRef := [],
        mimeType := selectMimeType support,
        mediaRecorderRef := some w.nextId,
        startTime := now,
        isRecording := true },
     { nextId := w.nextId + 1, live := w.live ++ [w.nextId] })
  else
    ({ st with error := some "Failed to access microphone" }, w)

/-- The ondataavailable handler: append the chunk to chunksRef only when its
size is positive. -/
def ondataavailable (data : List Nat) (st : RecorderState) : RecorderState :=
  if 0 < data.length then { st with chunksRef := st.chunksRef ++ [data] }
  else st

/-- Delivery of a sequence of emitted chunks, in arrival order. -/
def deliverChunks (cs : List (List Nat)) (st : RecorderState) : RecorderState :=
  cs.foldl (fun s c => ondataavailable c s) st

/-- A Blob: content bytes plus MIME type. -/
structure BlobM where
  bytes : List Nat
  mimeType : String
  deriving DecidableEq

/-- Blob construction from parts: the concatenation of the chunk bytes. -/
def concatChunks : List (List Nat) → List Nat
  | [] => []
  | c :: cs => c ++ concatChunks cs

/-- convertWebMToWAV: decode the compressed bytes (decodeAudioData is the
environment parameter); on success re-encode through audioBufferToWav into an
audio/wav blob; on failure catch locally, log a warning (the returned flag)
and hand back the original blob unchanged. The returned promise never
rejects. -/
def convertWebMToWAV (decode : List Nat → Option AudioBuffer) (b : BlobM) :
    BlobM × Bool :=
  match decode b.bytes with
  | some buf => (⟨audioBufferToWav buf, "audio/wav"⟩, false)
  | none => (b, true)

/-- The finalized capture blob built at the top of onstop: all accumulated
chunks concatenated in order, tagged with the session MIME type. -/
def finalizeBlob (st : RecorderState) : BlobM :=
  ⟨concatChunks st.chunksRef, st.mimeType⟩

/-- The onstop handler: build the original blob; when the session MIME type
contains webm or ogg, run convertWebMToWAV (which cannot reject, so the
surrounding catch is dead) and relabel the result audio/wav unconditionally;
otherwise pass the blob through untouched with its original label. Name the
file recording_<now>.wav when the final label contains wav, otherwise
recording_<now>.webm. Store the artifact and stop the stream's tracks. -/
def onstop (decode : List Nat → Option AudioBuffer) (now : Nat)
    (st : RecorderState) (w : World) : RecorderState × World :=
  let originalBlob := finalizeBlob st
  let finalDuration := now - st.startTime
  let pb :=
    if strIncludes st.mimeType "webm" || strIncludes st.mimeType "ogg" then
      ((convertWebMToWAV decode originalBlob).fst, "audio/wav")
    else (originalBlob, st.mimeType)
  let filename :=
    if strIncludes pb.snd "wav" then "recording_" ++ toString now ++ ".wav"
    else "recording_" ++ toString now ++ ".webm"
  let w2 :=
    match st.streamRef with
    | some sid => { w with live := w.live.filter (fun x => x != sid) }
    | none => w
  ({ st with
      recording := some ⟨pb.fst.bytes, pb.snd, filename, finalDuration⟩,
      streamRef := none },
   w2)

/-- stopRecording: acts only when a recorder exists and isRecording holds. -/
def stopRecording (st : RecorderState) : RecorderState :=
  if st.mediaRecorderRef.isSome && st.isRecording then
    { st with isRecording := false }
  else st

/-- clearRecording: release the held artifact, reset duration and error. -/
def clearRecording (st : RecorderState) : RecorderState :=
  { st with recording := none, error := none }

def suppWebm : MimeSupport := ⟨false, true, false, false⟩

/-- C2 counterexample: from the idle state, two successive granted
startRecording calls leave two distinct live input streams; the second call
changes the state (not a no-op) and sets no error (no rejection). -/
theorem start_twice_two_live_streams_cex :
    (startRecording true suppWebm 0 initialRecorderState ⟨0, []⟩).fst.isRecording
        = true ∧
    (startRecording true suppWebm 5
        (startRecording true suppWebm 0 initialRecorderState ⟨0, []⟩).fst
        (startRecording true suppWebm 0 initialRecorderState ⟨0, []⟩).snd).snd.live
      = [0, 1] ∧
    (startRecording true suppWebm 5
        (startRecording true suppWebm 0 initialRecorderState ⟨0, []⟩).fst
        (startRecording true suppWebm 0 initialRecorderState ⟨0, []⟩).snd).fst.error
      = none ∧
    (startRecording true suppWebm 5
        (startRecording true suppWebm 0 initialRecorderState ⟨0, []⟩).fst
        (startRecording true suppWebm 0 initialRecorderState ⟨0, []⟩).snd).fst
      ≠ (startRecording true suppWebm 0 initialRecorderState ⟨0, []⟩).fst := by
  decide

/-- C2 amended: startRecording has no single-session guard. Called while a
session is already recording on live stream s, a granted second call keeps s
live, allocates a fresh distinct stream that is also live, and repoints the
refs at the new stream — two concurrent live input streams exist and only
UI-level disabling prevents this. -/
theorem start_no_guard_second_capture (st : RecorderState) (w : World)
    (support : MimeSupport) (now s : Nat)
    (_hrec : st.isRecording = true) (_hstream : st.streamRef = some s)
    (hlive : s ∈ w.live) (hfresh : s < w.nextId) :
    (startRecording true support now st w).fst.isRecording = true ∧
    (startRecording true support now st w).fst.streamRef = some w.nextId ∧
    s ∈ (startRecording true support now st w).snd.live ∧
    w.nextId ∈ (startRecording true support now st w).snd.live ∧
    s ≠ w.nextId := by
  refine ⟨rfl, rfl, ?_, ?_, Nat.ne_of_lt hfresh⟩
  · show s ∈ w.live ++ [w.nextId]
    exact List.mem_append_left _ hlive
  · show w.nextId ∈ w.live ++ [w.nextId]
    exact List.mem_append_right _ (List.mem_singleton_self _)

def stAfterFirstStart : RecorderState :=
  (startRecording true suppWebm 0 initialRecorderState ⟨0, []⟩).fst

def wAfterFirstStart : World :=
  (startRecording true suppWebm 0 initialRecorderState ⟨0, []⟩).snd

theorem start_no_guard_second_capture_witness :
    (startRecording true suppWebm 7 stAfterFirstStart wAfterFirstStart).fst.isRecording
        = true ∧
    (startRecording true suppWebm 7 stAfterFirstStart wAfterFirstStart).fst.streamRef
        = some wAfterFirstStart.nextId ∧
    0 ∈ (startRecording true suppWebm 7 stAfterFirstStart wAfterFirstStart).snd.live ∧
    wAfterFirstStart.nextId ∈
      (startRecording true suppWebm 7 stAfterFirstStart wAfterFirstStart).snd.live ∧
    0 ≠ wAfterFirstStart.nextId :=
  start_no_guard_second_capture stAfterFirstStart wAfterFirstStart suppWebm 7 0
    (by decide) (by decide) (by decide) (by decide)

/-- C3: for every input whose decoding fails, convertWebMToWAV catches the
failure locally, signals it only as a warning flag, and returns the original
input blob byte-identical; being a total Lean function it cannot throw. -/
theorem convert_fallback_returns_original
    (decode : List Nat → Option AudioBuffer) (b : BlobM)
    (hfail : decode b.bytes = none) :
    convertWebMToWAV decode b = (b, true) := by
  simp [convertWebMToWAV, hfail]

def corruptBlob : BlobM := ⟨[1, 2, 3], "audio/webm"⟩

theorem convert_fallback_returns_original_witness :
    convertWebMToWAV (fun _ => none) corruptBlob = (corruptBlob, true) :=
  convert_fallback_returns_original (fun _ => none) corruptBlob rfl

theorem deliverChunks_chunksRef (cs : List (List Nat)) :
    ∀ st : RecorderState, (deliverChunks cs st).chunksRef =
      st.chunksRef ++ cs.filter (fun c => decide (0 < c.length)) := by
  induction cs with
  | nil => intro st; simp [deliverChunks]
  | cons c cs ih =>
      intro st
      show (deliverChunks cs (ondataavailable c st)).chunksRef = _
      rw [ih]
      by_cases hc : 0 < c.length
      · simp [ondataavailable, hc]
      · simp [ondataavailable, hc, List.length_eq_zero.mp (Nat.eq_zero_of_not_pos hc)]

theorem concatChunks_filter_pos (cs : List (List Nat)) :
    concatChunks (cs.filter (fun c => decide (0 < c.length))) =
      concatChunks cs := by
  induction cs with
  | nil => rfl
  | cons c cs ih =>
      by_cases hc : 0 < c.length
      · simp only [List.filter_cons]
        rw [if_pos (by simpa using hc)]
        simp only [concatChunks, ih]
      · have hnil : c = [] := List.length_eq_zero.mp (Nat.eq_zero_of_not_pos hc)
        subst hnil
        simp only [List.filter_cons]
        rw [if_neg (by simp)]
        simp only [concatChunks, ih, List.nil_append]

/-- C5 counterexample: an emitted chunk of size 0 is not appended to the
accumulation sequence — delivering the emitted sequence containing an empty
chunk followed by [7] accumulates only [[7]]. -/
theorem chunk_dropped_cex :
    (deliverChunks [[], [7]] initialRecorderState).chunksRef = [[7]] ∧
    (deliverChunks [[], [7]] initialRecorderState).chunksRef ≠ [[], [7]] := by
  decide

/-- C5 amended: chunks of positive size are appended in arrival order and
never reordered — the accumulation is the emitted sequence filtered to
positive-size chunks, an order-preserving subsequence — while size-0 chunks
are skipped; since skipped chunks are empty, the finalized capture blob's
bytes still equal the concatenation of all emitted chunks in arrival order. -/
theorem chunks_order_and_concat (cs : List (List Nat)) (st : RecorderState)
    (hempty : st.chunksRef = []) :
    (deliverChunks cs st).chunksRef =
      cs.filter (fun c => decide (0 < c.length)) ∧
    ((deliverChunks cs st).chunksRef).Sublist cs ∧
    (finalizeBlob (deliverChunks cs st)).bytes = concatChunks cs := by
  have h1 : (deliverChunks cs st).chunksRef =
      cs.filter (fun c => decide (0 < c.length)) := by
    rw [deliverChunks_chunksRef, hempty, List.nil_append]
  refine ⟨h1, ?_, ?_⟩
  · rw [h1]; exact List.filter_sublist cs
  · show concatChunks (deliverChunks cs st).chunksRef = concatChunks cs
    rw [h1, concatChunks_filter_pos]

theorem chunks_order_and_concat_witness :
    (deliverChunks [[1], [2, 3]] initialRecorderState).chunksRef =
      [[1], [2, 3]].filter (fun c => decide (0 < c.length)) ∧
    ((deliverChunks [[1], [2, 3]] initialRecorderState).chunksRef).Sublist
      [[1], [2, 3]] ∧
    (finalizeBlob (deliverChunks [[1], [2, 3]] initialRecorderState)).bytes =
      concatChunks [[1], [2, 3]] :=
  chunks_order_and_concat [[1], [2, 3]] initialRecorderState rfl

/-- C6: when the session MIME type carries no webm/ogg marker, onstop passes
the capture through byte-identical: the stored artifact's bytes are exactly
the concatenated chunks, its MIME label is the unchanged session type, and
the whole result is independent of the decoder — no decode-then-reencode is
performed. -/
theorem passthrough_byte_identical
    (decode decode2 : List Nat → Option AudioBuffer) (now : Nat)
    (st : RecorderState) (w : World)
    (hwebm : strIncludes st.mimeType "webm" = false)
    (hogg : strIncludes st.mimeType "ogg" = false) :
    ((onstop decode now st w).fst.recording).map (fun r => r.bytes) =
      some (concatChunks st.chunksRef) ∧
    ((onstop decode now st w).fst.recording).map (fun r => r.mimeType) =
      some st.mimeType ∧
    onstop decode now st w = onstop decode2 now st w := by
  simp [onstop, hwebm, hogg, finalizeBlob]

def stWavCapture : RecorderState :=
  ⟨none, true, none, some 0, [[1, 2]], "audio/wav", some 0, 0⟩

theorem passthrough_byte_identical_witness :
    ((onstop (fun _ => none) 3 stWavCapture ⟨1, [0]⟩).fst.recording).map
        (fun r => r.bytes) = some (concatChunks stWavCapture.chunksRef) ∧
    ((onstop (fun _ => none) 3 stWavCapture ⟨1, [0]⟩).fst.recording).map
        (fun r => r.mimeType) = some stWavCapture.mimeType ∧
    onstop (fun _ => none) 3 stWavCapture ⟨1, [0]⟩ =
      onstop (fun _ => some bufWit) 3 stWavCapture ⟨1, [0]⟩ :=
  passthrough_byte_identical (fun _ => none) (fun _ => some bufWit) 3
    stWavCapture ⟨1, [0]⟩ (by decide) (by decide)

def stOggCapture : RecorderState :=
  ⟨none, true, none, some 0, [[9]], "audio/ogg;codecs=opus", some 0, 0⟩

/-- C9 counterexample: an ogg capture whose decode fails is still named with
extension .wav — not the original captured extension .ogg — because
convertWebMToWAV cannot reject and onstop relabels the blob audio/wav
unconditionally, even though the stored bytes are still the compressed
original. -/
theorem filename_ogg_cex :
    ((onstop (fun _ => none) 0 stOggCapture ⟨1, [0]⟩).fst.recording).map
        (fun r => r.filename) = some "recording_0.wav" ∧
    ((onstop (fun _ => none) 0 stOggCapture ⟨1, [0]⟩).fst.recording).map
        (fun r => r.bytes) = some [9] ∧
    ("recording_0.wav" : String) ≠ "recording_0.ogg" := by
  decide

theorem onstop_filename_wav (decode : List Nat → Option AudioBuffer)
    (now : Nat) (st : RecorderState) (w : World)
    (h : (strIncludes st.mimeType "webm" || strIncludes st.mimeType "ogg"
          || strIncludes st.mimeType "wav") = true) :
    ((onstop decode now st w).fst.recording).map (fun r => r.filename) =
      some ("recording_" ++ toString now ++ ".wav") := by
  by_cases hc : (strIncludes st.mimeType "webm" ||
      strIncludes st.mimeType "ogg") = true
  · simp [onstop, hc,
      show strIncludes "audio/wav" "wav" = true from by decide]
  · have hw : strIncludes st.mimeType "wav" = true := by
      rcases Bool.or_eq_true _ _ ▸ h with h1 | h2
      · exact absurd h1 hc
      · exact h2
    simp [onstop, hc, hw]

/-- C9 amended: for every MIME type the capture preference selector can
produce, the finalized recording is always named recording_<epoch-ms>.wav —
even when decoding failed and the bytes are still the original compressed
capture — because the conversion path relabels the blob audio/wav
unconditionally; the original captured extension (webm/ogg) is never used.
(The simple AudioRecorder path instead hard-codes recording_<epoch-ms>.webm.) -/
theorem filename_always_wav (s : MimeSupport)
    (decode : List Nat → Option AudioBuffer) (now : Nat)
    (st : RecorderState) (w : World)
    (hmime : st.mimeType = selectMimeType s) :
    ((onstop decode now st w).fst.recording).map (fun r => r.filename) =
      some ("recording_" ++ toString now ++ ".wav") := by
  apply onstop_filename_wav
  rw [hmime]
  rcases s with ⟨a, b2, c, d⟩
  cases a <;> cases b2 <;> cases c <;> cases d <;> decide

def stWebmCapture : RecorderState :=
  ⟨none, true, none, some 0, [[9]], "audio/webm;codecs=opus", some 0, 0⟩

theorem filename_always_wav_witness :
    ((onstop (fun _ => none) 4 stWebmCapture ⟨1, [0]⟩).fst.recording).map
        (fun r => r.filename) =
      some ("recording_" ++ toString (4 : Nat) ++ ".wav") :=
  filename_always_wav suppWebm (fun _ => none) 4 stWebmCapture ⟨1, [0]⟩ rfl

/-- A JS File as the validators see it: name, declared MIME type, byte size. -/
structure JsFile where
  name : String
  type : String
  size : Nat
  deriving DecidableEq

/-- The verdict record returned by validateAudioFile. -/
structure Verdict where
  valid : Bool
  error : Option String
  deriving DecidableEq

/-- The accepted MIME list of services/api validateAudioFile. -/
def allowedTypes : List String :=
  ["audio/wav", "audio/mpeg", "audio/mp3", "audio/flac", "audio/ogg",
   "audio/x-m4a", "audio/mp4", "audio/webm"]

/-- validateAudioFile of services/api: strict 10 MiB cap, then empty-file
check, then an exact case-sensitive membership test on the declared type
that is skipped entirely when the declared type is the empty string. -/
def validateAudioFile (f : JsFile) : Verdict :=
  if 10 * 1024 * 1024 < f.size then
    ⟨false, some "File size too large. Maximum 10MB allowed."⟩
  else if f.size = 0 then
    ⟨false, some "File is empty."⟩
  else if f.type ≠ "" ∧ f.type ∉ allowedTypes then
    ⟨false, some ("Unsupported file type: " ++ f.type ++
      ". Supported: WAV, MP3, FLAC, OGG, WebM, M4A")⟩
  else ⟨true, none⟩

/-- The accepted MIME list of the FileUploader component. -/
def ALLOWED_TYPES : List String :=
  ["audio/wav", "audio/mp3", "audio/mpeg", "audio/flac", "audio/ogg",
   "audio/m4a"]

/-- ASCII lowercasing of one character code, as String.toLowerCase does for
the ASCII range the extension regex can match. -/
def lowCode (c : Nat) : Nat := if 65 ≤ c ∧ c ≤ 90 then c + 32 else c

/-- Suffix test over code lists. -/
def sufMatch (suf l : List Nat) : Bool := leadMatch suf.reverse l.reverse

/-- The FileUploader regex test: lowercased filename ends in one of
.wav .mp3 .flac .ogg .m4a (note: no .webm). -/
def matchAudioExt (name : String) : Bool :=
  [".wav", ".mp3", ".flac", ".ogg", ".m4a"].any
    (fun e => sufMatch (codes e) ((codes name).map lowCode))

/-- validateFile of FileUploader: reject unless the declared type is in the
exact case-sensitive list or the lowercased filename has an accepted audio
extension; then the same strict 10 MiB cap. There is no empty-file rule. -/
def validateFile (f : JsFile) : Bool :=
  if f.type ∉ ALLOWED_TYPES ∧ matchAudioExt f.name = false then false
  else if 10 * 1024 * 1024 < f.size then false
  else true

/-- C7 counterexample: the upload-path validator accepts a 0-byte artifact
that the api-layer validator rejects as empty, so the size verdicts are not
enforced identically for uploads and recordings. -/
theorem validator_zero_byte_cex :
    validateFile ⟨"a.wav", "audio/wav", 0⟩ = true ∧
    (validateAudioFile ⟨"a.wav", "audio/wav", 0⟩).valid = false := by
  decide

/-- C7 amended: validateAudioFile rejects a 0-byte artifact with the
empty-file reason, accepts exactly 10485760 bytes (type permitting), and
rejects 10485761 bytes with the too-large reason; the FileUploader validator
enforces the same strict 10485760-byte cap — boundary accepted, one more
byte rejected — but has no empty-file rule. -/
theorem validator_size_boundaries (f0 fMax fOver u uo : JsFile)
    (h0 : f0.size = 0)
    (hM : fMax.size = 10485760)
    (hMt : fMax.type = "" ∨ fMax.type ∈ allowedTypes)
    (hO : fOver.size = 10485761)
    (hu : u.size = 10485760) (hut : u.type ∈ ALLOWED_TYPES)
    (huo : uo.size = 10485761) (huot : uo.type ∈ ALLOWED_TYPES) :
    validateAudioFile f0 = ⟨false, some "File is empty."⟩ ∧
    (validateAudioFile fMax).valid = true ∧
    validateAudioFile fOver =
      ⟨false, some "File size too large. Maximum 10MB allowed."⟩ ∧
    validateFile u = true ∧
    validateFile uo = false := by
  refine ⟨?_, ?_, ?_, ?_, ?_⟩
  · rw [validateAudioFile, if_neg (by omega), if_pos h0]
  · rw [validateAudioFile, if_neg (by omega), if_neg (by omega)]
    rcases hMt with ht | ht
    · rw [if_neg (by simp [ht])]
    · rw [if_neg (by simp [ht])]
  · rw [validateAudioFile, if_pos (by omega)]
  · rw [validateFile, if_neg (by simp [hut]), if_neg (by omega)]
  · rw [validateFile, if_neg (by simp [huot]), if_pos (by omega)]

theorem validator_size_boundaries_witness :
    validateAudioFile ⟨"a.wav", "audio/wav", 0⟩ =
      ⟨false, some "File is empty."⟩ ∧
    (validateAudioFile ⟨"b.mp3", "audio/mp3", 10485760⟩).valid = true ∧
    validateAudioFile ⟨"c.ogg", "audio/ogg", 10485761⟩ =
      ⟨false, some "File size too large. Maximum 10MB allowed."⟩ ∧
    validateFile ⟨"d.mp3", "audio/mp3", 10485760⟩ = true ∧
    validateFile ⟨"e.mp3", "audio/mp3", 10485761⟩ = false :=
  validator_size_boundaries ⟨"a.wav", "audio/wav", 0⟩
    ⟨"b.mp3", "audio/mp3", 10485760⟩ ⟨"c.ogg", "audio/ogg", 10485761⟩
    ⟨"d.mp3", "audio/mp3", 10485760⟩ ⟨"e.mp3", "audio/mp3", 10485761⟩
    rfl rfl (Or.inr (by decide)) rfl rfl (by decide) rfl (by decide)

/-- C8 counterexample: the MIME comparison is case-sensitive (an uppercase
AUDIO/WAV declared type is rejected), a missing declared type makes
validateAudioFile accept any filename with no extension fallback at all, and
the upload validator's extension fallback does not accept .webm. -/
theorem mime_check_cex :
    (validateAudioFile ⟨"a.wav", "AUDIO/WAV", 5⟩).valid = false ∧
    (validateAudioFile ⟨"document.txt", "", 5⟩).valid = true ∧
    validateFile ⟨"a.webm", "", 5⟩ = false := by
  decide

/-- C8 amended: both MIME checks are exact, case-sensitive comparisons.
validateAudioFile treats an empty declared type as acceptable regardless of
filename (no extension fallback) and rejects a declared video/mp4. The
FileUploader validateFile falls back — whenever the declared type is outside
its exact list, including when missing — to a case-insensitive filename
extension check accepting exactly .wav/.mp3/.flac/.ogg/.m4a, so a typeless
sample.wav upload is accepted there and a typeless non-audio filename is
rejected there. -/
theorem mime_check_behavior (f g u v : JsFile)
    (hf : f.type = "") (hfs : 0 < f.size) (hfs2 : f.size ≤ 10485760)
    (hg : g.type = "video/mp4") (hgs2 : g.size ≤ 10485760)
    (_hu : u.type = "") (hue : matchAudioExt u.name = true)
    (hus : u.size ≤ 10485760)
    (hv : v.type = "") (hve : matchAudioExt v.name = false) :
    (validateAudioFile f).valid = true ∧
    (validateAudioFile g).valid = false ∧
    validateFile u = true ∧
    validateFile v = false := by
  refine ⟨?_, ?_, ?_, ?_⟩
  · rw [validateAudioFile, if_neg (by omega), if_neg (by omega),
      if_neg (by simp [hf])]
  · rw [validateAudioFile, if_neg (by omega)]
    by_cases hz : g.size = 0
    · rw [if_pos hz]
    · rw [if_neg hz, if_pos ⟨by simp [hg], by rw [hg]; decide⟩]
  · rw [validateFile, if_neg (by simp [hue]), if_neg (by omega)]
  · rw [validateFile, if_pos ⟨by rw [hv]; decide, hve⟩]

theorem mime_check_behavior_witness :
    (validateAudioFile ⟨"anything.bin", "", 5⟩).valid = true ∧
    (validateAudioFile ⟨"v.mp4", "video/mp4", 5⟩).valid = false ∧
    validateFile ⟨"Sample.WAV", "", 5⟩ = true ∧
    validateFile ⟨"doc.txt", "", 5⟩ = false :=
  mime_check_behavior ⟨"anything.bin", "", 5⟩ ⟨"v.mp4", "video/mp4", 5⟩
    ⟨"Sample.WAV", "", 5⟩ ⟨"doc.txt", "", 5⟩
    rfl (by decide) (by decide) rfl (by decide) rfl (by decide) (by decide)
    rfl (by decide)

end BreathScan
